import Mathlib

/-!
Verification of the agentic-data-scientist control loop.

This file gives a shallow embedding, in Lean 4, of the parts of the
repository needed to settle the specification claims:

* `agents/planner.py`   → `create_plan`
* `agents/reflector.py` → `reflect`, `should_replan`, `apply_replan_strategy`
* `agents/memory.py`    → the `JSONMemory` store, modelled on JSON-shaped data
* `tools/data_profiler.py` → `profile_dataset`, `dataset_fingerprint`
* `tools/modelling.py`  → the ranking step of `train_models`
* `agentic_data_scientist.py` → the orchestrator's replan loop (`runLoop`)

Modelling conventions: Python floats are modelled as rationals (`Rat`);
Python `round(x, n)` is modelled as exact half-even rounding on rationals;
Python lists and dicts are Lean lists and association lists; functions that
can raise return `Option`.  Python's process-salted builtin `hash` is a
parameter `h : String → Nat` of the fingerprint function (its output is
otherwise unspecified); the pre-hash base string is modelled exactly.
-/

set_option maxRecDepth 4000

/- Batteries marks the rational-number operations `@[irreducible]`, which
blocks `decide`-style evaluation of the embedded functions on concrete
inputs; restore default reducibility for this development. -/
attribute [local semireducible] Rat.add Rat.sub Rat.mul Rat.inv Rat.ofScientific

namespace ADS

/-! ### Basic Python-value modelling helpers -/

/-- Python `list.insert(i, x)`: insert at position `i`, clamped to the
list's length (Python clamps out-of-range insert indices). -/
def pyInsert (l : List α) (i : Nat) (x : α) : List α :=
  l.take i ++ x :: l.drop i

/-- Python `list.index(x)` for the cases used here (element present);
returns the index of the first occurrence, or the length when absent. -/
def pyIndex (l : List String) (x : String) : Nat :=
  match l with
  | [] => 0
  | y :: ys => if y = x then 0 else pyIndex ys x + 1

/-- Does the character list `needle` occur as a leading segment of `hay`? -/
def listStarts : List Char → List Char → Bool
  | [], _ => true
  | _ :: _, [] => false
  | n :: ns, h :: hs => n == h && listStarts ns hs

/-- Does `needle` occur as a contiguous segment of `hay`? -/
def listContains (needle : List Char) : List Char → Bool
  | [] => listStarts needle []
  | h :: hs => listStarts needle (h :: hs) || listContains needle hs

/-- Python `needle in hay` on strings (substring test). -/
def strContains (hay needle : String) : Bool :=
  listContains needle.data hay.data

/-- Python `x or 1.0` applied to an optional number: `None` and `0` are
falsy and give the default `1`. -/
def pyOrOne (v : Option Rat) : Rat :=
  match v with
  | none => 1
  | some x => if x = 0 then 1 else x

/-! ### Tabular data model (`pandas` objects, as used by the profiler)

A cell holds a scalar or is missing (`none` models `NaN`); a column has a
name, a pandas dtype and a cell list; a frame is a column list. -/

/-- A non-missing cell value. -/
inductive PyScalar where
  | int : Int → PyScalar
  | num : Rat → PyScalar
  | str : String → PyScalar
  | bool : Bool → PyScalar
  deriving DecidableEq, Repr

/-- The pandas dtypes distinguished by the profiler: `select_dtypes`
includes `number` and `bool`; `object`/`category` force the
classification flag. -/
inductive Dtype where
  | int64 : Dtype
  | float64 : Dtype
  | bool : Dtype
  | object : Dtype
  | category : Dtype
  deriving DecidableEq, Repr

/-- Is the dtype selected by `select_dtypes(include=["number", "bool"])`? -/
def isNumericDtype : Dtype → Bool
  | .int64 => true
  | .float64 => true
  | .bool => true
  | _ => false

/-- One column of a DataFrame. -/
structure Col where
  name : String
  dtype : Dtype
  values : List (Option PyScalar)
  deriving DecidableEq, Repr

/-- A DataFrame: an ordered list of named columns (all of equal length in
a well-formed frame). -/
structure DataFrame where
  cols : List Col
  deriving DecidableEq, Repr

/-- Models `df.shape[0]`. -/
def nrows (df : DataFrame) : Nat :=
  match df.cols with
  | [] => 0
  | c :: _ => c.values.length

/-- Models `df.columns.tolist()`. -/
def colNames (df : DataFrame) : List String := df.cols.map (fun c => c.name)

/-! ### Dataset profile record

`profile_dataset` in `tools/data_profiler.py` returns a dict; the fields
are modelled as a structure.  The dict key `imbalance_ratio` is modelled
by the field `imbalance` (an `Option`, `none` standing both for Python
`None` and for an absent key, which behave identically under the
`.get(...) or 1.0` accesses the code performs).  `class_counts` keeps the
counted values themselves where Python stringifies the dict keys. -/
structure Profile where
  shape_rows : Nat
  shape_cols : Nat
  columns : List String
  missing_pct : List (String × Rat)
  target : String
  target_dtype : Dtype
  is_classification : Bool
  numeric_features : List String
  categorical_features : List String
  n_unique_by_col : List (String × Nat)
  notes : List String
  class_counts : Option (List (Option PyScalar × Nat))
  imbalance : Option Rat
  deriving DecidableEq, Repr

/-! ### Planner (`agents/planner.py`) -/

/-- The base plan literal of `create_plan`. -/
def basePlan : List String :=
  ["profile_dataset", "build_preprocessor", "select_models", "train_models",
   "evaluate", "reflect", "write_report"]

/-- Models `create_plan(dataset_profile, memory_hint)`: the base plan, with
`"consider_imbalance_strategy"` inserted at `plan.index("train_models")`
when `dataset_profile.get("imbalance_ratio") or 1.0` is `≥ 3.0`.
The memory hint is accepted and ignored, as in the source. -/
def create_plan (dataset_profile : Profile) (memory_hint : Option Unit) : List String :=
  let plan := basePlan
  let imb := pyOrOne dataset_profile.imbalance
  let _ := memory_hint
  if 3 ≤ imb then
    pyInsert plan (pyIndex plan "train_models") "consider_imbalance_strategy"
  else
    plan

/-! ### Reflector (`agents/reflector.py`) -/

/-- The dict returned by `reflect`. -/
structure Reflection where
  status : String
  best_model : String
  issues : List String
  suggestions : List String
  replan_recommended : Bool
  deriving DecidableEq, Repr

/-- One candidate's metric dict as built by `train_models`. -/
structure Metrics where
  model : String
  accuracy : Rat
  balanced_accuracy : Rat
  macroF1 : Rat
  macroPrecision : Rat
  macroRecall : Rat
  deriving DecidableEq, Repr

/-- The baseline-lift issue message (truncated format argument elided:
the message identity is irrelevant to every claim, only list membership
and emptiness matter). -/
def baselineIssueMsg : String :=
  "Best model only marginally better than baseline. Weak signal or pipeline issues."

/-- The modest-F1 issue message. -/
def f1IssueMsg : String := "Macro F1 score is modest (<0.60)."

/-- The `dummy` lookup of `reflect`:
`next((m for m in all_metrics if "Dummy" in m.get("model", "")), None)`. -/
def findDummy (all_metrics : List Metrics) : Option Metrics :=
  all_metrics.find? (fun m => strContains m.model "Dummy")

/-- The `issues` list accumulated by `reflect`: the weak-baseline-lift
issue (when a dummy baseline is present and the improvement is < 0.05),
then the modest-macro-F1 issue (when macro-F1 < 0.60). -/
def reflectIssues (evaluation : Metrics) (all_metrics : List Metrics) : List String :=
  (match findDummy all_metrics with
   | none => []
   | some d =>
       if evaluation.balanced_accuracy - d.balanced_accuracy < 0.05
       then [baselineIssueMsg] else []) ++
  (if evaluation.macroF1 < 0.60 then [f1IssueMsg] else [])

/-- The `suggestions` list accumulated by `reflect`, mirroring the three
appends of the source. -/
def reflectSuggestions (dataset_profile : Profile) (evaluation : Metrics)
    (all_metrics : List Metrics) : List String :=
  (match findDummy all_metrics with
   | none => []
   | some d =>
       if evaluation.balanced_accuracy - d.balanced_accuracy < 0.05
       then ["Check for target leakage, verify target quality, or improve feature engineering."]
       else []) ++
  (if evaluation.macroF1 < 0.60 then
    ["Try different models, tune hyperparameters, or improve preprocessing."] else []) ++
  (if 3 ≤ pyOrOne dataset_profile.imbalance then
    ["Imbalance detected: consider class_weight, threshold tuning, or SMOTE."] else [])

/-- Models `reflect(dataset_profile, evaluation, all_metrics)` from
`agents/reflector.py`, translated clause by clause. -/
def reflect (dataset_profile : Profile) (evaluation : Metrics)
    (all_metrics : List Metrics) : Reflection :=
  let issues := reflectIssues evaluation all_metrics
  { status := if issues ≠ [] then "needs_attention" else "ok"
    best_model := evaluation.model
    issues := issues
    suggestions := reflectSuggestions dataset_profile evaluation all_metrics
    replan_recommended := decide (issues ≠ [] ∧ evaluation.macroF1 < 0.60) }

/-- Models `should_replan(reflection)`: projects the `replan_recommended` field. -/
def should_replan (reflection : Reflection) : Bool :=
  reflection.replan_recommended

/-- The note appended by `apply_replan_strategy`. -/
def replanNoteMsg : String := "Replan: adjusting strategy after reflection."

/-- Models `apply_replan_strategy(plan, dataset_profile, reflection)`: copies the
plan and profile, appends one note and one plan entry. -/
def apply_replan_strategy (plan : List String) (dataset_profile : Profile)
    (reflection : Reflection) : List String × Profile :=
  let _ := reflection
  let new_plan := plan ++ ["replan_attempt"]
  let new_profile := { dataset_profile with
    notes := dataset_profile.notes ++ [replanNoteMsg] }
  (new_plan, new_profile)

end ADS

/-! ## Claim C3: imbalance handling in `create_plan` -/

/-- C3. For every profile whose imbalance ratio is ≥ 3.0, `create_plan`
returns the base task sequence with exactly one
`"consider_imbalance_strategy"` task inserted immediately before
`"train_models"` and strictly after `"build_preprocessor"`; the
stage-dependency order of the seven base labels is preserved (the result
is exactly the base plan with the single extra label at position 3). -/
theorem C3_create_plan_imbalance (p : ADS.Profile) (q : Rat)
    (hq : p.imbalance = some q) (h3 : 3 ≤ q) (hint : Option Unit) :
    ADS.create_plan p hint =
      ["profile_dataset", "build_preprocessor", "select_models",
       "consider_imbalance_strategy", "train_models",
       "evaluate", "reflect", "write_report"] ∧
    (ADS.create_plan p hint).count "consider_imbalance_strategy" = 1 ∧
    ADS.pyIndex (ADS.create_plan p hint) "consider_imbalance_strategy" + 1 =
      ADS.pyIndex (ADS.create_plan p hint) "train_models" ∧
    ADS.pyIndex (ADS.create_plan p hint) "build_preprocessor" <
      ADS.pyIndex (ADS.create_plan p hint) "consider_imbalance_strategy" ∧
    List.Sublist ADS.basePlan (ADS.create_plan p hint) := by
  have himb : ADS.pyOrOne p.imbalance = q := by
    rw [hq]
    unfold ADS.pyOrOne
    have : ¬ q = 0 := by
      intro h0
      rw [h0] at h3
      norm_num at h3
    simp [this]
  have hcond : (3 : Rat) ≤ ADS.pyOrOne p.imbalance := by rw [himb]; exact h3
  unfold ADS.create_plan
  simp only [hcond, if_pos]
  refine ⟨by decide, by decide, by decide, by decide, by decide⟩

/-- Witness for C3 at the spec's example ratio `4.5`. -/
theorem C3_create_plan_imbalance_witness :
    ADS.create_plan
      { shape_rows := 5000, shape_cols := 2, columns := ["feature", "target"],
        missing_pct := [], target := "target", target_dtype := ADS.Dtype.int64,
        is_classification := true,
        numeric_features := ["feature"], categorical_features := [],
        n_unique_by_col := [], notes := [],
        class_counts := none, imbalance := some (9/2) } none =
      ["profile_dataset", "build_preprocessor", "select_models",
       "consider_imbalance_strategy", "train_models",
       "evaluate", "reflect", "write_report"] :=
  (C3_create_plan_imbalance _ (9/2) rfl (by norm_num) none).1

/-! ## Claim C10: absent / `None` / `0` imbalance ratio -/

/-- C10. When the profile's imbalance ratio is absent or `None`
(both modelled by `none`: Python's `dict.get` returns `None` in either
case) or `0`, `create_plan` behaves exactly as for ratio `1.0`: no
imbalance task is inserted and the result is the seven base labels in
canonical order. -/
theorem C10_create_plan_falsy_imbalance (p : ADS.Profile)
    (h : p.imbalance = none ∨ p.imbalance = some 0) (hint : Option Unit) :
    ADS.create_plan p hint =
      ["profile_dataset", "build_preprocessor", "select_models", "train_models",
       "evaluate", "reflect", "write_report"] ∧
    ADS.create_plan p hint =
      ADS.create_plan { p with imbalance := some 1 } hint ∧
    (ADS.create_plan p hint).count "consider_imbalance_strategy" = 0 := by
  have himb : ADS.pyOrOne p.imbalance = 1 := by
    rcases h with h | h <;> rw [h] <;> simp [ADS.pyOrOne]
  have hcond : ¬ (3 : Rat) ≤ ADS.pyOrOne p.imbalance := by rw [himb]; norm_num
  have hcond1 : ¬ (3 : Rat) ≤ ADS.pyOrOne (some 1) := by norm_num [ADS.pyOrOne]
  have hbase : ADS.create_plan p hint = ADS.basePlan := by
    unfold ADS.create_plan
    rw [if_neg hcond]
  have hbase1 : ADS.create_plan { p with imbalance := some 1 } hint = ADS.basePlan := by
    unfold ADS.create_plan
    rw [if_neg hcond1]
  rw [hbase, hbase1]
  refine ⟨rfl, rfl, by decide⟩

/-- Witness for C10 with the ratio key mapped to `None`. -/
theorem C10_create_plan_falsy_imbalance_witness :
    ADS.create_plan
      { shape_rows := 10, shape_cols := 1, columns := ["y"],
        missing_pct := [], target := "y", target_dtype := ADS.Dtype.float64,
        is_classification := false,
        numeric_features := [], categorical_features := [],
        n_unique_by_col := [], notes := [],
        class_counts := none, imbalance := none } none =
      ["profile_dataset", "build_preprocessor", "select_models", "train_models",
       "evaluate", "reflect", "write_report"] :=
  (C10_create_plan_falsy_imbalance _ (Or.inl rfl) none).1

/-! ## Claim C2: `reflect` status / replan recommendation and `should_replan` -/

/-- C2. For every (profile, best metrics, all metrics) input: `reflect`
returns status `"needs_attention"` iff its issues list is non-empty;
`replan_recommended` is `true` iff the issues list is non-empty and the
best candidate's macro-F1 is below the threshold `0.60`; and
`should_replan` returns exactly the `replan_recommended` field. -/
theorem C2_reflect_status_replan (p : ADS.Profile) (ev : ADS.Metrics)
    (allm : List ADS.Metrics) :
    ((ADS.reflect p ev allm).status = "needs_attention" ↔
      (ADS.reflect p ev allm).issues ≠ []) ∧
    ((ADS.reflect p ev allm).replan_recommended = true ↔
      ((ADS.reflect p ev allm).issues ≠ [] ∧ ev.macroF1 < 0.60)) ∧
    ADS.should_replan (ADS.reflect p ev allm) =
      (ADS.reflect p ev allm).replan_recommended := by
  have hi : (ADS.reflect p ev allm).issues = ADS.reflectIssues ev allm := rfl
  have hs : (ADS.reflect p ev allm).status =
      (if ADS.reflectIssues ev allm ≠ [] then "needs_attention" else "ok") := rfl
  have hr : (ADS.reflect p ev allm).replan_recommended =
      decide (ADS.reflectIssues ev allm ≠ [] ∧ ev.macroF1 < 0.60) := rfl
  refine ⟨?_, ?_, rfl⟩
  · rw [hs, hi]
    by_cases h : ADS.reflectIssues ev allm = [] <;> simp [h]
  · rw [hr, hi]
    simp [decide_eq_true_iff]

/-- Witness for C2 (vacuous-hypothesis-free claim stated over all inputs;
this instance exercises it on a concrete run with a dummy baseline and a
sub-threshold macro-F1, where replanning is recommended). -/
theorem C2_reflect_status_replan_witness :
    (ADS.reflect
      { shape_rows := 200, shape_cols := 2, columns := ["feature", "target"],
        missing_pct := [], target := "target", target_dtype := ADS.Dtype.int64,
        is_classification := true,
        numeric_features := ["feature"], categorical_features := [],
        n_unique_by_col := [], notes := [],
        class_counts := some [(some (ADS.PyScalar.int 0), 180), (some (ADS.PyScalar.int 1), 20)],
        imbalance := some 9 }
      { model := "LogisticRegression", accuracy := 0.55, balanced_accuracy := 0.52,
        macroF1 := 0.50, macroPrecision := 0.5, macroRecall := 0.5 }
      [{ model := "DummyMostFrequent", accuracy := 0.9, balanced_accuracy := 0.5,
         macroF1 := 0.47, macroPrecision := 0.45, macroRecall := 0.5 }]).status
      = "needs_attention" := by
  have h := C2_reflect_status_replan
    { shape_rows := 200, shape_cols := 2, columns := ["feature", "target"],
      missing_pct := [], target := "target", target_dtype := ADS.Dtype.int64,
      is_classification := true,
      numeric_features := ["feature"], categorical_features := [],
      n_unique_by_col := [], notes := [],
      class_counts := some [(some (ADS.PyScalar.int 0), 180), (some (ADS.PyScalar.int 1), 20)],
      imbalance := some 9 }
    { model := "LogisticRegression", accuracy := 0.55, balanced_accuracy := 0.52,
      macroF1 := 0.50, macroPrecision := 0.5, macroRecall := 0.5 }
    [{ model := "DummyMostFrequent", accuracy := 0.9, balanced_accuracy := 0.5,
       macroF1 := 0.47, macroPrecision := 0.45, macroRecall := 0.5 }]
  exact h.1.mpr (by decide)

/-! ## Claim C4: `apply_replan_strategy` is a pure extension -/

/-- C4. `apply_replan_strategy` is a pure function (so its inputs are
left unchanged); the returned plan is exactly the input plan with
`"replan_attempt"` appended — hence the input plan is a leading segment
of it, never shorter, entries in order — and the returned profile is the
input profile with exactly one note appended to its note list, every
other field unchanged. -/
theorem C4_apply_replan_strategy_extends (plan : List String) (p : ADS.Profile)
    (r : ADS.Reflection) :
    (ADS.apply_replan_strategy plan p r).1 = plan ++ ["replan_attempt"] ∧
    (ADS.apply_replan_strategy plan p r).2 =
      { p with notes := p.notes ++ [ADS.replanNoteMsg] } ∧
    plan <+: (ADS.apply_replan_strategy plan p r).1 ∧
    p.notes <+: (ADS.apply_replan_strategy plan p r).2.notes ∧
    plan.length ≤ (ADS.apply_replan_strategy plan p r).1.length := by
  refine ⟨rfl, rfl, ⟨["replan_attempt"], rfl⟩, ⟨[ADS.replanNoteMsg], rfl⟩, ?_⟩
  simp [ADS.apply_replan_strategy]

namespace ADS

/-! ### Orchestrator loop (`AgenticDataScientist.run`, lines 141–211)

Each pass of the `while True:` loop trains, evaluates and reflects; the
training and evaluation stages are external collaborators, so the
reflection produced on the `k`-th pass is supplied by an oracle
`refl : Nat → Reflection` (the claim quantifies over every sequence of
Reflector outputs).  The loop state the claim concerns is the plan, the
profile and the replan counter `self.state["replan_count"]`. -/

/-- Outcome of the orchestrator loop: final plan and profile, the number
of train/evaluate/reflect cycles performed, and the number of replan
transitions taken. -/
structure LoopResult where
  plan : List String
  profile : Profile
  cycles : Nat
  replans : Nat
  deriving Repr

/-- The orchestrator's execution loop.  One invocation is one
train/evaluate/reflect cycle on the current plan/profile; afterwards the
loop stops if `should_replan` is false, stops if the replan counter has
reached `max_replans`, and otherwise increments the counter, applies the
replan strategy and iterates. -/
def runLoop (refl : Nat → Reflection) (plan : List String) (profile : Profile)
    (replan_count max_replans : Nat) : LoopResult :=
  let reflection := refl replan_count
  if ¬ should_replan reflection then
    ⟨plan, profile, 1, 0⟩
  else if max_replans ≤ replan_count then
    ⟨plan, profile, 1, 0⟩
  else
    let pp := apply_replan_strategy plan profile reflection
    let rest := runLoop refl pp.1 pp.2 (replan_count + 1) max_replans
    ⟨rest.plan, rest.profile, rest.cycles + 1, rest.replans + 1⟩
termination_by max_replans - replan_count
decreasing_by omega

/-- Bound on the loop outcome, generalised over the starting value of the
replan counter. -/
theorem runLoop_bound (refl : Nat → Reflection) :
    ∀ (fuel replan_count max_replans : Nat),
      max_replans - replan_count ≤ fuel →
      ∀ (plan : List String) (profile : Profile),
        (runLoop refl plan profile replan_count max_replans).replans ≤
          max_replans - replan_count ∧
        (runLoop refl plan profile replan_count max_replans).cycles ≤
          max_replans - replan_count + 1 := by
  intro fuel
  induction fuel with
  | zero =>
      intro c m h plan profile
      rw [runLoop]
      split
      · exact ⟨Nat.zero_le _, Nat.le_add_left _ _⟩
      · split
        · exact ⟨Nat.zero_le _, Nat.le_add_left _ _⟩
        · omega
  | succ n ih =>
      intro c m h plan profile
      rw [runLoop]
      split
      · exact ⟨Nat.zero_le _, Nat.le_add_left _ _⟩
      · split
        · exact ⟨Nat.zero_le _, Nat.le_add_left _ _⟩
        · rename_i hr hm
          have hlt : c < m := by omega
          have hrec := ih (c + 1) m (by omega)
            (apply_replan_strategy plan profile (refl c)).1
            (apply_replan_strategy plan profile (refl c)).2
          simp only
          constructor
          · have := hrec.1
            omega
          · have := hrec.2
            omega

end ADS

/-! ## Claim C1: replan-budget termination bound -/

/-- C1. For every `maxReplans = N` and every sequence of Reflector
outputs — including one recommending a replan on every iteration — the
orchestrator loop performs at most `N` replan transitions and terminates
(it is a total function here) after at most `N + 1`
train/evaluate/reflect cycles. -/
theorem C1_loop_replan_bound (refl : Nat → ADS.Reflection) (plan : List String)
    (profile : ADS.Profile) (N : Nat) :
    (ADS.runLoop refl plan profile 0 N).replans ≤ N ∧
    (ADS.runLoop refl plan profile 0 N).cycles ≤ N + 1 := by
  have h := ADS.runLoop_bound refl N 0 N (by omega) plan profile
  simpa using h

namespace ADS

/-! ### Memory store (`agents/memory.py`)

`JSONMemory` keeps its whole state in `self.data`, a value deserialised
from JSON, and every accessor navigates it dynamically.  JSON values are
modelled by `J`; operations that can raise (`AttributeError`/`TypeError`
on wrongly-shaped data) return `Option`. -/

/-- A JSON value, as produced by `json.load`. -/
inductive J where
  | null : J
  | bool : Bool → J
  | num : Int → J
  | str : String → J
  | arr : List J → J
  | obj : List (String × J) → J

/-- Lookup in a JSON object's key/value list (first match, as in a
Python dict, whose keys are unique). -/
def plookup : List (String × J) → String → Option J
  | [], _ => none
  | (k, v) :: kvs, key => if k = key then some v else plookup kvs key

/-- Python `d[key] = v` on a dict: overwrite in place, or append a new
binding (dicts preserve insertion order). -/
def pset : List (String × J) → String → J → List (String × J)
  | [], key, v => [(key, v)]
  | (k, w) :: kvs, key, v =>
      if k = key then (k, v) :: kvs else (k, w) :: pset kvs key v

/-- The constructor's initial state: `{"datasets": {}, "notes": []}`. -/
def initialMem : J := J.obj [("datasets", J.obj []), ("notes", J.arr [])]

/-- A note entry `{"ts": ..., "msg": ...}`. -/
def noteObj (ts msg : String) : J := J.obj [("ts", J.str ts), ("msg", J.str msg)]

/-- The result of `JSONMemory._load`: the resulting `self.data`, and
whether the corrupt-file backup was written. -/
structure LoadResult where
  data : J
  backedUp : Bool

/-- Models `JSONMemory._load`.  The persisted file is `none` when absent,
`some none` when `open`/`json.load` raises (unreadable or unparseable
content), and `some (some j)` when it parses to the JSON value `j` —
which is then installed as `self.data` unchanged, whatever its shape. -/
def loadMem (path ts : String) : Option (Option J) → LoadResult
  | none => ⟨initialMem, false⟩
  | some none =>
      ⟨J.obj [("datasets", J.obj []),
              ("notes", J.arr [noteObj ts ("Memory reset; backup at " ++ path ++ ".bak")])],
       true⟩
  | some (some j) => ⟨j, false⟩

/-- Models `get_dataset_record`: `self.data.get("datasets", {}).get(fingerprint)`.
Outer `none` models an `AttributeError` (non-dict data or non-dict
`datasets` value); the inner option is Python's `None`-for-missing. -/
def get_dataset_record (data : J) (fingerprint : String) : Option (Option J) :=
  match data with
  | J.obj kvs =>
      match (plookup kvs "datasets").getD (J.obj []) with
      | J.obj d => some (plookup d fingerprint)
      | _ => none
  | _ => none

/-- Models `upsert_dataset_record`:
`self.data.setdefault("datasets", {})[fingerprint] = record` followed by
`save()` (persistence is immediate and always of the whole state, so the
saved file's content equals the returned value). -/
def upsert_dataset_record (data : J) (fingerprint : String) (record : J) : Option J :=
  match data with
  | J.obj kvs =>
      match plookup kvs "datasets" with
      | some (J.obj d) =>
          some (J.obj (pset kvs "datasets" (J.obj (pset d fingerprint record))))
      | some _ => none
      | none =>
          some (J.obj (pset kvs "datasets" (J.obj (pset [] fingerprint record))))
  | _ => none

/-- Models `add_note`: `self.data.setdefault("notes", []).append({...})` then
`save()`. -/
def add_note (data : J) (ts msg : String) : Option J :=
  match data with
  | J.obj kvs =>
      match plookup kvs "notes" with
      | some (J.arr ns) => some (J.obj (pset kvs "notes" (J.arr (ns ++ [noteObj ts msg]))))
      | some _ => none
      | none => some (J.obj (pset kvs "notes" (J.arr [noteObj ts msg])))
  | _ => none

/-- Is a JSON value a well-shaped memory file
(`{"datasets": {...}, "notes": [...]}`)? -/
def isValidMem (j : J) : Bool :=
  match j with
  | J.obj kvs =>
      (match plookup kvs "datasets" with
       | some (J.obj _) => true
       | _ => false) &&
      (match plookup kvs "notes" with
       | some (J.arr _) => true
       | _ => false)
  | _ => false

/-- One mutation of the store's public API. -/
inductive MemOp where
  | upsert (fingerprint : String) (record : J) : MemOp
  | note (ts msg : String) : MemOp

/-- Run one mutation. -/
def applyOp (data : J) : MemOp → Option J
  | MemOp.upsert fp rec => upsert_dataset_record data fp rec
  | MemOp.note ts msg => add_note data ts msg

/-- Run a sequence of mutations, propagating a raised exception. -/
def applyOps (data : J) : List MemOp → Option J
  | [] => some data
  | op :: ops =>
      match applyOp data op with
      | none => none
      | some d => applyOps d ops

/-- The fingerprints a sequence of mutations writes to. -/
def upsertedFps : List MemOp → List String
  | [] => []
  | MemOp.upsert fp _ :: ops => fp :: upsertedFps ops
  | MemOp.note _ _ :: ops => upsertedFps ops

theorem plookup_pset_self (kvs : List (String × J)) (k : String) (v : J) :
    plookup (pset kvs k v) k = some v := by
  induction kvs with
  | nil => simp [pset, plookup]
  | cons hd tl ih =>
      obtain ⟨k', w⟩ := hd
      by_cases h : k' = k <;> simp [pset, plookup, h, ih]

theorem plookup_pset_ne (kvs : List (String × J)) (k k' : String) (v : J)
    (h : k' ≠ k) : plookup (pset kvs k v) k' = plookup kvs k' := by
  induction kvs with
  | nil =>
      simp only [pset, plookup]
      rw [if_neg (fun hh => h hh.symm)]
  | cons hd tl ih =>
      obtain ⟨k'', w⟩ := hd
      simp only [pset]
      by_cases h2 : k'' = k
      · subst h2
        rw [if_pos rfl]
        simp only [plookup]
        rw [if_neg (fun hh => h hh.symm), if_neg (fun hh => h hh.symm)]
      · rw [if_neg h2]
        simp only [plookup]
        by_cases h3 : k'' = k'
        · rw [if_pos h3, if_pos h3]
        · rw [if_neg h3, if_neg h3]
          exact ih

/-- Unfolding lemma: `get` on an object state. -/
theorem get_dataset_record_obj (kvs : List (String × J)) (fp : String) :
    get_dataset_record (J.obj kvs) fp =
      match (plookup kvs "datasets").getD (J.obj []) with
      | J.obj d => some (plookup d fp)
      | _ => none := rfl

/-- Models `get` on a state whose `"datasets"` entry was just written. -/
theorem get_dataset_record_set (kvs d : List (String × J)) (fp : String) :
    get_dataset_record (J.obj (pset kvs "datasets" (J.obj d))) fp =
      some (plookup d fp) := by
  rw [get_dataset_record_obj, plookup_pset_self]
  rfl

/-- After a successful upsert, reading back the same fingerprint returns
exactly the written record. -/
theorem get_after_upsert (data data' : J) (fp : String) (rec : J)
    (h : upsert_dataset_record data fp rec = some data') :
    get_dataset_record data' fp = some (some rec) := by
  cases data with
  | obj kvs =>
      simp only [upsert_dataset_record] at h
      split at h
      · injection h with h
        subst h
        rw [get_dataset_record_set, plookup_pset_self]
      · exact Option.noConfusion h
      · injection h with h
        subst h
        rw [get_dataset_record_set, plookup_pset_self]
  | null => simp [upsert_dataset_record] at h
  | bool b => simp [upsert_dataset_record] at h
  | num n => simp [upsert_dataset_record] at h
  | str s => simp [upsert_dataset_record] at h
  | arr xs => simp [upsert_dataset_record] at h

/-- A mutation that does not write fingerprint `fp` preserves what `get`
observes at `fp`. -/
theorem get_frame (data data' : J) (op : MemOp) (fp : String) (r : Option J)
    (hop : applyOp data op = some data')
    (hget : get_dataset_record data fp = some r)
    (hfp : ∀ rec, op ≠ MemOp.upsert fp rec) :
    get_dataset_record data' fp = some r := by
  cases data with
  | obj kvs =>
      cases op with
      | upsert fp' rec =>
          have hne : fp ≠ fp' := by
            intro hh
            exact (hfp rec) (by rw [hh])
          simp only [applyOp, upsert_dataset_record] at hop
          split at hop
          · rename_i d hd
            injection hop with hop
            subst hop
            rw [get_dataset_record_set, plookup_pset_ne d fp' fp rec hne]
            rw [get_dataset_record_obj, hd] at hget
            exact hget
          · exact Option.noConfusion hop
          · rename_i hd
            injection hop with hop
            subst hop
            rw [get_dataset_record_set, plookup_pset_ne [] fp' fp rec hne]
            rw [get_dataset_record_obj, hd] at hget
            exact hget
      | note ts msg =>
          simp only [applyOp, add_note] at hop
          split at hop
          · rename_i ns hn
            injection hop with hop
            subst hop
            rw [get_dataset_record_obj] at hget
            rw [get_dataset_record_obj, plookup_pset_ne kvs "notes" "datasets" _ (by decide)]
            exact hget
          · exact Option.noConfusion hop
          · rename_i hn
            injection hop with hop
            subst hop
            rw [get_dataset_record_obj] at hget
            rw [get_dataset_record_obj, plookup_pset_ne kvs "notes" "datasets" _ (by decide)]
            exact hget
  | null => simp [get_dataset_record] at hget
  | bool b => simp [get_dataset_record] at hget
  | num n => simp [get_dataset_record] at hget
  | str s => simp [get_dataset_record] at hget
  | arr xs => simp [get_dataset_record] at hget

/-- Over any successful run of mutations none of which writes `fp`,
`get fp` keeps returning what it returned at the start. -/
theorem get_frame_ops (ops : List MemOp) :
    ∀ (data st : J) (fp : String) (r : Option J),
      applyOps data ops = some st →
      get_dataset_record data fp = some r →
      fp ∉ upsertedFps ops →
      get_dataset_record st fp = some r := by
  induction ops with
  | nil =>
      intro data st fp r h hget _
      simp only [applyOps, Option.some_inj] at h
      subst h
      exact hget
  | cons op rest ih =>
      intro data st fp r h hget hfp
      simp only [applyOps] at h
      split at h
      · exact Option.noConfusion h
      · rename_i d hop
        have hnot : ∀ rec, op ≠ MemOp.upsert fp rec := by
          intro rec hh
          subst hh
          exact hfp (by simp [upsertedFps])
        have hrest : fp ∉ upsertedFps rest := by
          intro hh
          apply hfp
          cases op <;> simp [upsertedFps, hh]
        exact ih d st fp r h (get_frame data d op fp r hop hget hnot) hrest


end ADS

/-! ## Claim C5: memory round-trip and absence -/

/-- C5. For every store state on which an upsert succeeds, a `get` of
the same fingerprint returns exactly the record written; and for every
fingerprint never upserted over any successful sequence of API mutations
from the freshly-constructed store, `get` returns Python `None`
("absent"), not an error (the outer `some` is the no-exception claim). -/
theorem C5_memory_roundtrip_absent (data data' : ADS.J) (fp : String) (rec : ADS.J)
    (ops : List ADS.MemOp) (st : ADS.J) (fp' : String)
    (h1 : ADS.upsert_dataset_record data fp rec = some data')
    (h2 : ADS.applyOps ADS.initialMem ops = some st)
    (h3 : fp' ∉ ADS.upsertedFps ops) :
    ADS.get_dataset_record data' fp = some (some rec) ∧
    ADS.get_dataset_record st fp' = some none := by
  constructor
  · exact ADS.get_after_upsert data data' fp rec h1
  · exact ADS.get_frame_ops ops ADS.initialMem st fp' none h2 rfl h3

/-- Witness for C5: a concrete store that upserts `fp_1` and adds a note;
`fp_2` was never written and reads back as absent. -/
theorem C5_memory_roundtrip_absent_witness :
    ADS.get_dataset_record
      (ADS.J.obj [("datasets", ADS.J.obj [("fp_1", ADS.J.str "x")]), ("notes", ADS.J.arr [])])
      "fp_1" = some (some (ADS.J.str "x")) ∧
    ADS.get_dataset_record
      (ADS.J.obj [("datasets", ADS.J.obj [("fp_1", ADS.J.str "x")]),
                  ("notes", ADS.J.arr [ADS.noteObj "t0" "hello"])])
      "fp_2" = some none :=
  C5_memory_roundtrip_absent
    ADS.initialMem
    (ADS.J.obj [("datasets", ADS.J.obj [("fp_1", ADS.J.str "x")]), ("notes", ADS.J.arr [])])
    "fp_1" (ADS.J.str "x")
    [ADS.MemOp.upsert "fp_1" (ADS.J.str "x"), ADS.MemOp.note "t0" "hello"]
    (ADS.J.obj [("datasets", ADS.J.obj [("fp_1", ADS.J.str "x")]),
                ("notes", ADS.J.arr [ADS.noteObj "t0" "hello"])])
    "fp_2" rfl rfl (by simp [ADS.upsertedFps])

namespace ADS

theorem listStarts_refl (l : List Char) : listStarts l l = true := by
  induction l with
  | nil => rfl
  | cons c cs ih => simp [listStarts, ih]

theorem listContains_suffix (pre n : List Char) :
    listContains n (pre ++ n) = true := by
  induction pre with
  | nil =>
      cases n with
      | nil => rfl
      | cons c cs =>
          simp only [List.nil_append, listContains, Bool.or_eq_true]
          exact Or.inl (listStarts_refl (c :: cs))
  | cons p ps ih =>
      simp only [List.cons_append, listContains, Bool.or_eq_true]
      exact Or.inr ih

/-- A string built as `pre ++ suffix` contains `suffix` as a substring. -/
theorem strContains_append (pre suffix : String) :
    strContains (pre ++ suffix) suffix = true := by
  unfold strContains
  rw [String.data_append]
  exact listContains_suffix pre.data suffix.data

end ADS

/-! ## Claim C6: corrupt-memory healing (amended) -/

/-- C6, amended. For every persisted memory file whose content fails
to load as JSON (`open`/`json.load` raises), constructing the store does
not raise: `_load` backs up the unreadable file, resets the state to one
that is empty except for a single note whose message references the
backup path, and a subsequent upsert of any record succeeds, yields a
well-shaped memory state (which `save` then serialises as a valid memory
file), and reads back correctly.  (For a file that parses to JSON of the
wrong shape the code performs no healing; see the counterexample.) -/
theorem C6_heal_unparseable (path ts fp : String) (rec : ADS.J) :
    (ADS.loadMem path ts (some none)).backedUp = true ∧
    (ADS.loadMem path ts (some none)).data =
      ADS.J.obj [("datasets", ADS.J.obj []),
                 ("notes", ADS.J.arr [ADS.noteObj ts
                    ("Memory reset; backup at " ++ (path ++ ".bak"))])] ∧
    ADS.strContains ("Memory reset; backup at " ++ (path ++ ".bak")) (path ++ ".bak")
      = true ∧
    ADS.upsert_dataset_record (ADS.loadMem path ts (some none)).data fp rec =
      some (ADS.J.obj [("datasets", ADS.J.obj [(fp, rec)]),
                       ("notes", ADS.J.arr [ADS.noteObj ts
                          ("Memory reset; backup at " ++ (path ++ ".bak"))])]) ∧
    ADS.isValidMem
      (ADS.J.obj [("datasets", ADS.J.obj [(fp, rec)]),
                  ("notes", ADS.J.arr [ADS.noteObj ts
                     ("Memory reset; backup at " ++ (path ++ ".bak"))])]) = true ∧
    ADS.get_dataset_record
      (ADS.J.obj [("datasets", ADS.J.obj [(fp, rec)]),
                  ("notes", ADS.J.arr [ADS.noteObj ts
                     ("Memory reset; backup at " ++ (path ++ ".bak"))])]) fp
      = some (some rec) := by
  refine ⟨rfl, rfl, ADS.strContains_append _ _, rfl, rfl, ?_⟩
  rw [ADS.get_dataset_record_obj]
  simp [ADS.plookup]

/-- Witness for C6 at a concrete path, timestamp, fingerprint and record. -/
theorem C6_heal_unparseable_witness :
    (ADS.loadMem "agent_memory.json" "t0" (some none)).backedUp = true ∧
    ADS.upsert_dataset_record
      (ADS.loadMem "agent_memory.json" "t0" (some none)).data "fp_1" (ADS.J.str "x") =
      some (ADS.J.obj [("datasets", ADS.J.obj [("fp_1", ADS.J.str "x")]),
                       ("notes", ADS.J.arr [ADS.noteObj "t0"
                          ("Memory reset; backup at " ++ ("agent_memory.json" ++ ".bak"))])]) :=
  ⟨(C6_heal_unparseable "agent_memory.json" "t0" "fp_1" (ADS.J.str "x")).1,
   (C6_heal_unparseable "agent_memory.json" "t0" "fp_1" (ADS.J.str "x")).2.2.2.1⟩

/-- Counterexample to C6 as stated: the file content `[]` is valid JSON
but invalid memory content; `json.load` succeeds, so no backup and no
reset happen — the malformed value is installed as the store state — and
a subsequent upsert raises (`none` here models the `AttributeError`),
contradicting the claim that for every invalid content the store heals
and a subsequent upsert succeeds. -/
theorem C6_counterexample_wrong_shape :
    (ADS.loadMem "agent_memory.json" "t0" (some (some (ADS.J.arr [])))).backedUp = false ∧
    (ADS.loadMem "agent_memory.json" "t0" (some (some (ADS.J.arr [])))).data =
      ADS.J.arr [] ∧
    ADS.isValidMem (ADS.J.arr []) = false ∧
    ADS.upsert_dataset_record (ADS.J.arr []) "fp_1" (ADS.J.obj []) = none := by
  exact ⟨rfl, rfl, rfl, rfl⟩

namespace ADS

/-! ### Decimal rendering (Python `str` of a non-negative integer) and
half-even rounding (Python `round(x, n)` on the exact rational value) -/

/-- The decimal digits of `n`, most significant first (the characters of
Python `str(n)` / an f-string `{n}` for a non-negative integer). -/
def decDigits (n : Nat) : List Char :=
  if h : n < 10 then [Nat.digitChar n]
  else decDigits (n / 10) ++ [Nat.digitChar (n % 10)]
termination_by n
decreasing_by exact Nat.div_lt_self (by omega) (by omega)

/-- Python `str(n)` for a non-negative integer. -/
def decStr (n : Nat) : String := ⟨decDigits n⟩

/-- Read a digit string back as a number (little helper used to invert
`decDigits`). -/
def valDigits (l : List Char) : Nat :=
  l.foldl (fun a c => a * 10 + (c.toNat - 48)) 0

theorem digitChar_toNat : ∀ d : Nat, d < 10 → (Nat.digitChar d).toNat = 48 + d := by
  decide

theorem valDigits_append_one (l : List Char) (c : Char) :
    valDigits (l ++ [c]) = valDigits l * 10 + (c.toNat - 48) := by
  unfold valDigits
  rw [List.foldl_append]
  rfl

theorem valDigits_decDigits : ∀ n : Nat, valDigits (decDigits n) = n := by
  intro n
  induction n using Nat.strong_induction_on with
  | _ n ih =>
      rw [decDigits]
      by_cases h : n < 10
      · rw [dif_pos h]
        show valDigits [Nat.digitChar n] = n
        unfold valDigits
        simp [List.foldl, digitChar_toNat n h]
      · rw [dif_neg h]
        rw [valDigits_append_one]
        rw [ih (n / 10) (Nat.div_lt_self (by omega) (by omega))]
        rw [digitChar_toNat (n % 10) (Nat.mod_lt n (by omega))]
        omega

theorem decDigits_injective (m n : Nat) (h : decDigits m = decDigits n) : m = n := by
  have hm := valDigits_decDigits m
  have hn := valDigits_decDigits n
  rw [← hm, ← hn, h]

theorem decDigits_isDigit : ∀ n : Nat, ∀ c ∈ decDigits n, c.isDigit = true := by
  intro n
  induction n using Nat.strong_induction_on with
  | _ n ih =>
      rw [decDigits]
      by_cases h : n < 10
      · rw [dif_pos h]
        intro c hc
        simp only [List.mem_singleton] at hc
        subst hc
        clear ih
        revert h
        revert n
        decide
      · rw [dif_neg h]
        intro c hc
        rw [List.mem_append] at hc
        rcases hc with hc | hc
        · exact ih (n / 10) (Nat.div_lt_self (by omega) (by omega)) c hc
        · simp only [List.mem_singleton] at hc
          subst hc
          have h10 : n % 10 < 10 := Nat.mod_lt n (by omega)
          revert h10
          generalize n % 10 = d
          revert d
          decide

/-- Round a rational to the nearest integer, ties to even (the rounding
Python's `round` uses). -/
def rhe (x : Rat) : Int :=
  let f := x.floor
  let r := x - f
  if r < 1/2 then f
  else if 1/2 < r then f + 1
  else if f % 2 = 0 then f else f + 1

/-- Python `round(x, 3)` on the exact rational value. -/
def round3 (x : Rat) : Rat := (rhe (x * 1000) : Rat) / 1000

/-- Python `round(x, 2)` on the exact rational value. -/
def round2 (x : Rat) : Rat := (rhe (x * 100) : Rat) / 100

/-! ### Profiler (`tools/data_profiler.py`) -/

/-- Models `is_classification_target(series)`: object/category dtypes are
classification; otherwise at most 50 distinct non-null values. -/
def nunique (vs : List (Option PyScalar)) : Nat :=
  ((vs.filterMap id).dedup).length

def is_classification_target (dtype : Dtype) (vs : List (Option PyScalar)) : Bool :=
  if dtype = Dtype.object ∨ dtype = Dtype.category then true
  else nunique vs ≤ 50

/-- Models `y.value_counts(dropna=False)`: every distinct cell (missing cells
grouped together) with its number of occurrences, in first-seen order
(only the count multiset is ever consumed). -/
def valueCounts (vs : List (Option PyScalar)) : List (Option PyScalar × Nat) :=
  vs.dedup.map (fun v => (v, vs.count v))

/-- Largest count (`vc.max()`), on a non-empty list. -/
def maxCount (l : List Nat) : Nat := l.foldl max 0

/-- Smallest count (`vc.min()`), on a non-empty list. -/
def minCount (l : List Nat) : Nat :=
  match l with
  | [] => 0
  | x :: xs => xs.foldl min x

/-- The class-balance ratio of `profile_dataset`:
`float(vc.max() / max(vc.min(), 1))` when there are at least two counted
classes, else `1.0`. -/
def imbalanceOf (vs : List (Option PyScalar)) : Rat :=
  if 2 ≤ (valueCounts vs).length then
    ((maxCount ((valueCounts vs).map Prod.snd) : Rat)) /
      ((max (minCount ((valueCounts vs).map Prod.snd)) 1 : Nat) : Rat)
  else 1

def smallNoteMsg : String :=
  "Small dataset (<1000 rows): prefer simpler models / guard against overfitting."

def hiDimNoteMsg : String :=
  "High dimensionality (>100 columns): watch one-hot expansion and overfitting."

def imbalanceNoteMsg : String :=
  "Imbalance detected (ratio >= 3.0): prioritise macro metrics / balanced accuracy."

def nonClsNoteMsg : String :=
  "Non-classification target detected: this template focuses on classification."

/-- The size notes collected before the class-balance block. -/
def baseNotes (df : DataFrame) : List String :=
  (if nrows df < 1000 then [smallNoteMsg] else []) ++
  (if 100 < df.cols.length then [hiDimNoteMsg] else [])

/-- Models `X.select_dtypes(include=["number", "bool"]).columns` after dropping
the target column. -/
def numericFeatures (df : DataFrame) (target : String) : List String :=
  ((df.cols.filter (fun c => c.name != target)).filter
    (fun c => isNumericDtype c.dtype)).map (fun c => c.name)

/-- Models `[c for c in X.columns if c not in numeric_cols]`. -/
def categoricalFeatures (df : DataFrame) (target : String) : List String :=
  ((df.cols.filter (fun c => c.name != target)).map (fun c => c.name)).filter
    (fun n => !(numericFeatures df target).contains n)

/-- Per-column missing percentage `(df.isna().mean() * 100).round(2)`
(an empty column would be `NaN` in pandas; here division by zero gives 0). -/
def missingPct (df : DataFrame) : List (String × Rat) :=
  df.cols.map (fun c =>
    (c.name, round2 ((c.values.count none : Rat) * 100 / (c.values.length : Rat))))

/-- Models `profile_dataset(df, target)`: `none` models the `ValueError` raised
when the target column is absent; otherwise the profile dict, translated
field by field from the source. -/
def profile_dataset (df : DataFrame) (target : String) : Option Profile :=
  match df.cols.find? (fun c => c.name == target) with
  | none => none
  | some ycol =>
      if is_classification_target ycol.dtype ycol.values then
        some { shape_rows := nrows df
               shape_cols := df.cols.length
               columns := colNames df
               missing_pct := missingPct df
               target := target
               target_dtype := ycol.dtype
               is_classification := true
               numeric_features := numericFeatures df target
               categorical_features := categoricalFeatures df target
               n_unique_by_col := df.cols.map (fun c => (c.name, nunique c.values))
               notes := baseNotes df ++
                 (if 3 ≤ imbalanceOf ycol.values then [imbalanceNoteMsg] else [])
               class_counts := some (valueCounts ycol.values)
               imbalance := some (round3 (imbalanceOf ycol.values)) }
      else
        some { shape_rows := nrows df
               shape_cols := df.cols.length
               columns := colNames df
               missing_pct := missingPct df
               target := target
               target_dtype := ycol.dtype
               is_classification := false
               numeric_features := numericFeatures df target
               categorical_features := categoricalFeatures df target
               n_unique_by_col := df.cols.map (fun c => (c.name, nunique c.values))
               notes := baseNotes df ++ [nonClsNoteMsg]
               class_counts := none
               imbalance := none }

end ADS

/-! ## Claim C8: imbalance ratio computed by `profile_dataset` (amended) -/

/-- C8, amended. For every successfully profiled dataset and target:
when the target is not classified as a classification target the profile's
imbalance ratio is `None` (not `1.0` as the claim states); when it is a
classification target with fewer than two counted classes the ratio is
`1.0`; and otherwise it is majority class count divided by minority class
count (rounded, as the code does, to three decimal places). -/
theorem C8_profile_imbalance (df : ADS.DataFrame) (t : String) (p : ADS.Profile)
    (c : ADS.Col)
    (hc : df.cols.find? (fun col => col.name == t) = some c)
    (hp : ADS.profile_dataset df t = some p) :
    (p.is_classification = false → p.imbalance = none) ∧
    (p.is_classification = true → (ADS.valueCounts c.values).length < 2 →
      p.imbalance = some 1) ∧
    (p.is_classification = true → 2 ≤ (ADS.valueCounts c.values).length →
      p.imbalance = some (ADS.round3
        (((ADS.maxCount ((ADS.valueCounts c.values).map Prod.snd) : Nat) : Rat) /
         ((max (ADS.minCount ((ADS.valueCounts c.values).map Prod.snd)) 1 : Nat) : Rat)))) := by
  simp only [ADS.profile_dataset] at hp
  split at hp
  · exact Option.noConfusion hp
  · rename_i ycol hy
    have hyc : ycol = c := by
      rw [hy] at hc
      exact Option.some.inj hc
    subst hyc
    split at hp
    · rename_i hcls
      injection hp with hp
      subst hp
      refine ⟨?_, ?_, ?_⟩
      · intro h
        exact Bool.noConfusion h
      · intro _ hlen
        show some (ADS.round3 (ADS.imbalanceOf ycol.values)) = some 1
        rw [ADS.imbalanceOf, if_neg (by omega)]
        decide
      · intro _ hlen
        show some (ADS.round3 (ADS.imbalanceOf ycol.values)) = some _
        rw [ADS.imbalanceOf, if_pos hlen]
    · rename_i hcls
      injection hp with hp
      subst hp
      refine ⟨?_, ?_, ?_⟩
      · intro _
        rfl
      · intro h
        exact Bool.noConfusion h
      · intro h
        exact Bool.noConfusion h

namespace ADS

/-- Witness data for C8: a 12-row single-column frame whose target has a
9:3 class split. -/
def wdfC8 : DataFrame :=
  ⟨[⟨"t", Dtype.int64,
     List.replicate 9 (some (PyScalar.int 0)) ++ List.replicate 3 (some (PyScalar.int 1))⟩]⟩

def wcolC8 : Col :=
  ⟨"t", Dtype.int64,
   List.replicate 9 (some (PyScalar.int 0)) ++ List.replicate 3 (some (PyScalar.int 1))⟩

/-- The profile the embedding computes for `wdfC8`. -/
def wprofC8 : Profile :=
  { shape_rows := 12, shape_cols := 1, columns := ["t"],
    missing_pct := [("t", 0)], target := "t", target_dtype := Dtype.int64,
    is_classification := true, numeric_features := [], categorical_features := [],
    n_unique_by_col := [("t", 2)],
    notes := [smallNoteMsg, imbalanceNoteMsg],
    class_counts := some [(some (PyScalar.int 0), 9), (some (PyScalar.int 1), 3)],
    imbalance := some 3 }

end ADS

/-- Witness for C8 on the concrete 9:3 dataset. -/
theorem C8_profile_imbalance_witness :
    (ADS.wprofC8.is_classification = false → ADS.wprofC8.imbalance = none) ∧
    (ADS.wprofC8.is_classification = true →
      (ADS.valueCounts ADS.wcolC8.values).length < 2 →
      ADS.wprofC8.imbalance = some 1) ∧
    (ADS.wprofC8.is_classification = true →
      2 ≤ (ADS.valueCounts ADS.wcolC8.values).length →
      ADS.wprofC8.imbalance = some (ADS.round3
        (((ADS.maxCount ((ADS.valueCounts ADS.wcolC8.values).map Prod.snd) : Nat) : Rat) /
         ((max (ADS.minCount ((ADS.valueCounts ADS.wcolC8.values).map Prod.snd)) 1 : Nat) : Rat)))) :=
  C8_profile_imbalance ADS.wdfC8 "t" ADS.wprofC8 ADS.wcolC8 (by decide) (by decide)

/-- Counterexample to C8 as stated: a numeric target with 51 distinct
values is not classified as a classification target, and the code then
stores `None` — not `1.0` — as the imbalance ratio. -/
theorem C8_profile_imbalance_counterexample :
    (ADS.profile_dataset
        ⟨[⟨"t", ADS.Dtype.int64, (List.range 51).map (fun i => some (ADS.PyScalar.int i))⟩]⟩
        "t").map (fun p => p.is_classification) = some false ∧
    (ADS.profile_dataset
        ⟨[⟨"t", ADS.Dtype.int64, (List.range 51).map (fun i => some (ADS.PyScalar.int i))⟩]⟩
        "t").map (fun p => p.imbalance) = some none ∧
    some (none : Option Rat) ≠ some (some (1 : Rat)) := by
  refine ⟨by decide, by decide, by simp⟩

namespace ADS

/-! ### Dataset fingerprint (`tools/data_profiler.py`)

`dataset_fingerprint` builds `f"{rows}x{cols}|{target}|{','.join(columns)}"`
and returns `f"fp_{abs(hash(base)) % 10**12}"`.  Python's builtin string
`hash` is salted per process and unspecified, so it is a parameter
`h : String → Nat` (standing for `abs ∘ hash`); the base string is
modelled exactly. -/

/-- Models `",".join(columns)`, at the character level. -/
def joinComma : List String → List Char
  | [] => []
  | [s] => s.data
  | s :: r :: rest => s.data ++ ',' :: joinComma (r :: rest)

/-- The characters of the pre-hash base string
`f"{rows}x{cols}|{target}|{cols_joined}"`. -/
def baseChars (df : DataFrame) (target : String) : List Char :=
  decDigits (nrows df) ++
    ('x' :: (decDigits df.cols.length ++
      ('|' :: (target.data ++ ('|' :: joinComma (colNames df))))))

/-- The pre-hash base string of `dataset_fingerprint`. -/
def fingerprintBase (df : DataFrame) (target : String) : String :=
  ⟨baseChars df target⟩

/-- Models `dataset_fingerprint(df, target)`, parameterised by the process's
string hash `h` (composed with `abs`). -/
def dataset_fingerprint (h : String → Nat) (df : DataFrame) (target : String) : String :=
  "fp_" ++ decStr (h (fingerprintBase df target) % (10 ^ 12))

theorem str_data_inj (a b : String) (h : a.data = b.data) : a = b := by
  cases a
  cases b
  simp only at h
  rw [h]

/-- Splitting two equal lists at the first occurrence of a separator. -/
theorem sep_split {sep : Char} :
    ∀ (a b s t : List Char), sep ∉ a → sep ∉ b →
      a ++ sep :: s = b ++ sep :: t → a = b ∧ s = t := by
  intro a
  induction a with
  | nil =>
      intro b s t _ hb h
      cases b with
      | nil =>
          simp only [List.nil_append] at h
          injection h with _ h2
          exact ⟨rfl, h2⟩
      | cons c b' =>
          simp only [List.nil_append, List.cons_append] at h
          injection h with h1 _
          exact absurd (by rw [← h1]; exact List.mem_cons_self sep b') hb
  | cons c a' ih =>
      intro b s t ha hb h
      cases b with
      | nil =>
          simp only [List.cons_append, List.nil_append] at h
          injection h with h1 _
          exact absurd (by rw [h1]; exact List.mem_cons_self sep a') ha
      | cons c' b' =>
          simp only [List.cons_append] at h
          injection h with h1 h2
          have ha' : sep ∉ a' := fun hm => ha (List.mem_cons_of_mem _ hm)
          have hb' : sep ∉ b' := fun hm => hb (List.mem_cons_of_mem _ hm)
          obtain ⟨hab, hst⟩ := ih b' s t ha' hb' h2
          refine ⟨?_, hst⟩
          rw [h1, hab]

theorem not_mem_decDigits (c : Char) (hc : c.isDigit = false) (n : Nat) :
    c ∉ decDigits n := by
  intro hm
  rw [decDigits_isDigit n c hm] at hc
  exact Bool.noConfusion hc

/-- Models `",".join` is injective on comma-free name lists of equal length. -/
theorem joinComma_inj :
    ∀ (xs ys : List String),
      (∀ x ∈ xs, ',' ∉ x.data) → (∀ y ∈ ys, ',' ∉ y.data) →
      xs.length = ys.length → joinComma xs = joinComma ys → xs = ys := by
  intro xs
  induction xs with
  | nil =>
      intro ys _ _ hlen _
      cases ys with
      | nil => rfl
      | cons y ys' => simp at hlen
  | cons x xs' ih =>
      intro ys hx hy hlen hj
      cases ys with
      | nil => simp at hlen
      | cons y ys' =>
          cases xs' with
          | nil =>
              cases ys' with
              | nil =>
                  simp only [joinComma] at hj
                  rw [str_data_inj x y hj]
              | cons y2 ys'' => simp at hlen
          | cons x2 xs'' =>
              cases ys' with
              | nil => simp at hlen
              | cons y2 ys'' =>
                  simp only [joinComma] at hj
                  obtain ⟨hd, htl⟩ := sep_split _ _ _ _
                    (hx x (List.mem_cons_self _ _)) (hy y (List.mem_cons_self _ _)) hj
                  have hx' : ∀ a ∈ x2 :: xs'', ',' ∉ a.data :=
                    fun a ha => hx a (List.mem_cons_of_mem _ ha)
                  have hy' : ∀ a ∈ y2 :: ys'', ',' ∉ a.data :=
                    fun a ha => hy a (List.mem_cons_of_mem _ ha)
                  have hlen' : (x2 :: xs'').length = (y2 :: ys'').length := by
                    simpa using hlen
                  rw [str_data_inj x y hd, ih (y2 :: ys'') hx' hy' hlen' htl]

end ADS

/-! ## Claim C7: fingerprint determinism and sensitivity (amended) -/

/-- C7, amended. For every string hash `h` the process may use:
datasets with identical column names (order-sensitive), identical shape
and identical target name get equal fingerprints.  Changing the target
name, or the row count, alone changes the pre-hash base string (so the
fingerprints differ unless the hash collides on the two base strings);
changing the column names alone changes the base string provided the
names are comma-free — names containing commas can make two different
column lists produce the identical base string and hence the identical
fingerprint (see the counterexample). -/
theorem C7_fingerprint_directional (h : String → Nat) (df1 df2 : ADS.DataFrame)
    (t1 t2 : String) :
    (ADS.colNames df1 = ADS.colNames df2 → ADS.nrows df1 = ADS.nrows df2 → t1 = t2 →
      ADS.dataset_fingerprint h df1 t1 = ADS.dataset_fingerprint h df2 t2) ∧
    (ADS.colNames df1 = ADS.colNames df2 → ADS.nrows df1 = ADS.nrows df2 → t1 ≠ t2 →
      ADS.fingerprintBase df1 t1 ≠ ADS.fingerprintBase df2 t2) ∧
    (ADS.colNames df1 = ADS.colNames df2 → t1 = t2 → ADS.nrows df1 ≠ ADS.nrows df2 →
      ADS.fingerprintBase df1 t1 ≠ ADS.fingerprintBase df2 t2) ∧
    (ADS.nrows df1 = ADS.nrows df2 → t1 = t2 →
      (∀ x ∈ ADS.colNames df1, ',' ∉ x.data) →
      (∀ y ∈ ADS.colNames df2, ',' ∉ y.data) →
      ADS.colNames df1 ≠ ADS.colNames df2 →
      ADS.fingerprintBase df1 t1 ≠ ADS.fingerprintBase df2 t2) := by
  refine ⟨?_, ?_, ?_, ?_⟩
  · intro hnames hr ht
    have hcl : df1.cols.length = df2.cols.length := by
      have := congrArg List.length hnames
      simpa [ADS.colNames] using this
    subst ht
    unfold ADS.dataset_fingerprint ADS.fingerprintBase ADS.baseChars
    rw [hnames, hr, hcl]
  · intro hnames hr ht heq
    apply ht
    have hcl : df1.cols.length = df2.cols.length := by
      have := congrArg List.length hnames
      simpa [ADS.colNames] using this
    unfold ADS.fingerprintBase at heq
    injection heq with heq
    unfold ADS.baseChars at heq
    rw [hnames, hr, hcl] at heq
    have e2 := List.append_cancel_left heq
    injection e2 with _ e2
    have e4 := List.append_cancel_left e2
    injection e4 with _ e4
    exact ADS.str_data_inj t1 t2 (List.append_cancel_right e4)
  · intro hnames ht hr heq
    apply hr
    have hcl : df1.cols.length = df2.cols.length := by
      have := congrArg List.length hnames
      simpa [ADS.colNames] using this
    subst ht
    unfold ADS.fingerprintBase at heq
    injection heq with heq
    unfold ADS.baseChars at heq
    rw [hnames, hcl] at heq
    obtain ⟨hd, _⟩ := ADS.sep_split _ _ _ _
      (ADS.not_mem_decDigits 'x' (by decide) _)
      (ADS.not_mem_decDigits 'x' (by decide) _) heq
    exact ADS.decDigits_injective _ _ hd
  · intro hr ht hx hy hnames heq
    apply hnames
    subst ht
    unfold ADS.fingerprintBase at heq
    injection heq with heq
    unfold ADS.baseChars at heq
    rw [hr] at heq
    have e2 := List.append_cancel_left heq
    injection e2 with _ e2
    obtain ⟨hdcl, e3⟩ := ADS.sep_split _ _ _ _
      (ADS.not_mem_decDigits '|' (by decide) _)
      (ADS.not_mem_decDigits '|' (by decide) _) e2
    have hcl : df1.cols.length = df2.cols.length := ADS.decDigits_injective _ _ hdcl
    have e5 := List.append_cancel_left e3
    injection e5 with _ e5
    have hlen : (ADS.colNames df1).length = (ADS.colNames df2).length := by
      simp [ADS.colNames, hcl]
    exact ADS.joinComma_inj _ _ hx hy hlen e5

namespace ADS

/-- Witness frames for C7: identical column names, shape and target,
different cell values. -/
def wdf1C7 : DataFrame :=
  ⟨[⟨"a", Dtype.int64, [some (PyScalar.int 1), some (PyScalar.int 2)]⟩,
    ⟨"b", Dtype.int64, [some (PyScalar.int 3), some (PyScalar.int 4)]⟩]⟩

def wdf2C7 : DataFrame :=
  ⟨[⟨"a", Dtype.int64, [some (PyScalar.int 9), none]⟩,
    ⟨"b", Dtype.float64, [none, some (PyScalar.int 7)]⟩]⟩

/-- Counterexample frames for C7: different column names whose
comma-joined renderings coincide. -/
def cdf1C7 : DataFrame :=
  ⟨[⟨"a,b", Dtype.int64, [some (PyScalar.int 0)]⟩,
    ⟨"c", Dtype.int64, [some (PyScalar.int 0)]⟩]⟩

def cdf2C7 : DataFrame :=
  ⟨[⟨"a", Dtype.int64, [some (PyScalar.int 0)]⟩,
    ⟨"b,c", Dtype.int64, [some (PyScalar.int 0)]⟩]⟩

end ADS

/-- Witness for C7 (equal structure, different data, equal fingerprints,
under a concrete stand-in hash). -/
theorem C7_fingerprint_directional_witness :
    ADS.dataset_fingerprint String.length ADS.wdf1C7 "a" =
      ADS.dataset_fingerprint String.length ADS.wdf2C7 "a" :=
  (C7_fingerprint_directional String.length ADS.wdf1C7 ADS.wdf2C7 "a" "a").1 rfl rfl rfl

/-- Counterexample to C7 as stated: the column lists `["a,b", "c"]` and
`["a", "b,c"]` differ, the shapes and targets agree, yet the pre-hash
base strings — and therefore the fingerprints, for every hash — are
identical, because the comma-join of the column names coincides. -/
theorem C7_fingerprint_counterexample :
    ADS.colNames ADS.cdf1C7 ≠ ADS.colNames ADS.cdf2C7 ∧
    ADS.nrows ADS.cdf1C7 = ADS.nrows ADS.cdf2C7 ∧
    ADS.cdf1C7.cols.length = ADS.cdf2C7.cols.length ∧
    ADS.fingerprintBase ADS.cdf1C7 "t" = ADS.fingerprintBase ADS.cdf2C7 "t" ∧
    ADS.dataset_fingerprint String.length ADS.cdf1C7 "t" =
      ADS.dataset_fingerprint String.length ADS.cdf2C7 "t" :=
  ⟨by decide, rfl, rfl, rfl, rfl⟩

namespace ADS

/-! ### Model ranking (`tools/modelling.py`, `train_models`)

The fitting itself is external (scikit-learn); what `train_models` adds
around it is the ranking
`results.sort(key=lambda r: (balanced_accuracy, macroF1), reverse=True)`
— Python's stable sort, descending on the lexicographic key — followed by
`best = results[0]` and `all_metrics = [r["metrics"] for r in results]`.
The per-candidate metric dicts, in candidate declaration order, are the
input of this model. -/

/-- The sort key `(balanced_accuracy, macroF1)`. -/
def rankKey (m : Metrics) : Rat × Rat := (m.balanced_accuracy, m.macroF1)

/-- Lexicographic strict order on sort keys (Python tuple `<`). -/
def keyLt (a b : Rat × Rat) : Prop :=
  a.1 < b.1 ∨ (a.1 = b.1 ∧ a.2 < b.2)

instance (a b : Rat × Rat) : Decidable (keyLt a b) := by
  unfold keyLt
  infer_instance

theorem keyLt_asymm (a b : Rat × Rat) (h1 : keyLt a b) : ¬ keyLt b a := by
  intro h2
  rcases h1 with h1 | ⟨e1, h1⟩ <;> rcases h2 with h2 | ⟨e2, h2⟩ <;> linarith

theorem keyLt_trans (a b c : Rat × Rat) (h1 : keyLt a b) (h2 : keyLt b c) :
    keyLt a c := by
  rcases h1 with h1 | ⟨e1, h1⟩ <;> rcases h2 with h2 | ⟨e2, h2⟩
  · exact Or.inl (lt_trans h1 h2)
  · exact Or.inl (by rw [← e2]; exact h1)
  · exact Or.inl (by rw [e1]; exact h2)
  · exact Or.inr ⟨e1.trans e2, lt_trans h1 h2⟩

/-- One step of the stable descending insertion: `x` goes after every
element whose key is not strictly below `x`'s (so equal keys keep the
earlier element first). -/
def insDesc (x : Metrics) : List Metrics → List Metrics
  | [] => [x]
  | y :: ys => if keyLt (rankKey y) (rankKey x) then x :: y :: ys else y :: insDesc x ys

/-- Python's stable `list.sort(key=rankKey, reverse=True)`: fold the
declaration-ordered list into a descending-sorted accumulator. -/
def pySortDesc (l : List Metrics) : List Metrics :=
  l.foldl (fun acc x => insDesc x acc) []

/-- Descending order: no later element has a strictly greater key. -/
def RankedDesc (l : List Metrics) : Prop :=
  List.Pairwise (fun a b => ¬ keyLt (rankKey a) (rankKey b)) l

theorem mem_insDesc (x z : Metrics) (l : List Metrics)
    (hz : z ∈ insDesc x l) : z = x ∨ z ∈ l := by
  induction l with
  | nil => simpa [insDesc] using hz
  | cons y ys ih =>
      unfold insDesc at hz
      split at hz
      · rcases List.mem_cons.mp hz with hz | hz
        · exact Or.inl hz
        · exact Or.inr hz
      · rcases List.mem_cons.mp hz with hz | hz
        · exact Or.inr (by rw [hz]; exact List.mem_cons_self y ys)
        · rcases ih hz with hh | hh
          · exact Or.inl hh
          · exact Or.inr (List.mem_cons_of_mem y hh)

theorem insDesc_ranked (x : Metrics) (l : List Metrics) (hl : RankedDesc l) :
    RankedDesc (insDesc x l) := by
  induction l with
  | nil => simp [insDesc, RankedDesc]
  | cons y ys ih =>
      rw [RankedDesc, List.pairwise_cons] at hl
      obtain ⟨hy, hys⟩ := hl
      unfold insDesc
      split
      · rename_i hc
        rw [RankedDesc, List.pairwise_cons]
        constructor
        · intro z hz
          rcases List.mem_cons.mp hz with hz | hz
          · rw [hz]
            exact keyLt_asymm _ _ hc
          · intro hxz
            exact hy z hz (keyLt_trans _ _ _ hc hxz)
        · rw [RankedDesc, List.pairwise_cons] at *
          exact ⟨hy, hys⟩
      · rename_i hc
        rw [RankedDesc, List.pairwise_cons]
        constructor
        · intro z hz
          rcases mem_insDesc x z ys hz with hh | hh
          · rw [hh]
            exact hc
          · exact hy z hh
        · exact ih hys

theorem insDesc_perm (x : Metrics) (l : List Metrics) :
    List.Perm (insDesc x l) (x :: l) := by
  induction l with
  | nil => simp [insDesc]
  | cons y ys ih =>
      unfold insDesc
      split
      · exact List.Perm.refl _
      · exact List.Perm.trans (List.Perm.cons y ih) (List.Perm.swap x y ys)

end ADS

namespace ADS

theorem keyLt_irrefl (a : Rat × Rat) : ¬ keyLt a a := by
  intro h
  rcases h with h | ⟨_, h⟩ <;> exact lt_irrefl _ h

/-- Filtering one stable insertion at a fixed key value: the inserted
element lands after every already-present element of the same key. -/
theorem insDesc_filter (x : Metrics) (acc : List Metrics) (k : Rat × Rat)
    (hacc : RankedDesc acc) :
    (insDesc x acc).filter (fun m => decide (rankKey m = k)) =
      if rankKey x = k
      then acc.filter (fun m => decide (rankKey m = k)) ++ [x]
      else acc.filter (fun m => decide (rankKey m = k)) := by
  induction acc with
  | nil =>
      by_cases hk : rankKey x = k <;> simp [insDesc, List.filter, hk]
  | cons y ys ih =>
      rw [RankedDesc, List.pairwise_cons] at hacc
      obtain ⟨hy, hys⟩ := hacc
      unfold insDesc
      split
      · rename_i hc
        by_cases hk : rankKey x = k
        · rw [if_pos hk]
          have hempty : (y :: ys).filter (fun m => decide (rankKey m = k)) = [] := by
            rw [List.filter_eq_nil_iff]
            intro a ha
            simp only [decide_eq_true_iff]
            intro hak
            rcases List.mem_cons.mp ha with ha | ha
            · rw [ha] at hak
              rw [hak, ← hk] at hc
              exact keyLt_irrefl _ hc
            · apply hy a ha
              rw [hak, ← hk]
              exact hc
          rw [hempty]
          simp [List.filter_cons, hk, hempty]
        · rw [if_neg hk]
          simp [List.filter_cons, hk]
      · rename_i hc
        have ihys := ih hys
        by_cases hk : rankKey x = k
        · rw [if_pos hk]
          rw [if_pos hk] at ihys
          by_cases hpy : rankKey y = k <;>
            simp [List.filter_cons, hpy, ihys]
        · rw [if_neg hk]
          rw [if_neg hk] at ihys
          by_cases hpy : rankKey y = k <;>
            simp [List.filter_cons, hpy, ihys]

theorem sortAux_ranked (l : List Metrics) :
    ∀ acc : List Metrics, RankedDesc acc →
      RankedDesc (l.foldl (fun acc x => insDesc x acc) acc) := by
  induction l with
  | nil => intro acc h; exact h
  | cons x xs ih => intro acc h; exact ih _ (insDesc_ranked x acc h)

theorem pySortDesc_ranked (l : List Metrics) : RankedDesc (pySortDesc l) :=
  sortAux_ranked l [] (by simp [RankedDesc])

theorem sortAux_perm (l : List Metrics) :
    ∀ acc : List Metrics,
      List.Perm (l.foldl (fun acc x => insDesc x acc) acc) (acc ++ l) := by
  induction l with
  | nil => intro acc; simp
  | cons x xs ih =>
      intro acc
      show List.Perm (xs.foldl _ (insDesc x acc)) (acc ++ x :: xs)
      refine List.Perm.trans (ih (insDesc x acc)) ?_
      refine List.Perm.trans (List.Perm.append_right xs (insDesc_perm x acc)) ?_
      exact List.perm_middle.symm

theorem pySortDesc_perm (l : List Metrics) : List.Perm (pySortDesc l) l := by
  simpa using sortAux_perm l []

theorem sortAux_filter (l : List Metrics) :
    ∀ (acc : List Metrics) (k : Rat × Rat), RankedDesc acc →
      (l.foldl (fun acc x => insDesc x acc) acc).filter
          (fun m => decide (rankKey m = k)) =
        acc.filter (fun m => decide (rankKey m = k)) ++
          l.filter (fun m => decide (rankKey m = k)) := by
  induction l with
  | nil => intro acc k _; simp
  | cons x xs ih =>
      intro acc k h
      show (xs.foldl _ (insDesc x acc)).filter _ = _
      rw [ih (insDesc x acc) k (insDesc_ranked x acc h)]
      rw [insDesc_filter x acc k h]
      by_cases hk : rankKey x = k
      · rw [if_pos hk]
        simp [List.filter_cons, hk]
      · rw [if_neg hk]
        simp [List.filter_cons, hk]

/-- Stability of the modelled sort: at every key value, the sorted list
keeps exactly the input's elements in input (declaration) order. -/
theorem pySortDesc_filter (l : List Metrics) (k : Rat × Rat) :
    (pySortDesc l).filter (fun m => decide (rankKey m = k)) =
      l.filter (fun m => decide (rankKey m = k)) := by
  have := sortAux_filter l [] k (by simp [RankedDesc])
  simpa using this

/-- What `train_models` returns around the external fitting loop: the
per-candidate metric dicts (declaration order) are sorted stably,
descending on `(balanced_accuracy, macroF1)`; `best` is `results[0]`
(an `IndexError`, modelled by `none`, on an empty candidate list);
`all_metrics` lists every candidate's metrics in ranked order. -/
structure TrainPayload where
  results : List Metrics
  best : Metrics
  all_metrics : List Metrics
  deriving DecidableEq, Repr

def train_models (candidateMetrics : List Metrics) : Option TrainPayload :=
  match pySortDesc candidateMetrics with
  | [] => none
  | best :: rest => some ⟨best :: rest, best, best :: rest⟩

end ADS

/-! ## Claim C9: `train_models` ranking -/

/-- C9. For every candidate metric list (in declaration order) on
which `train_models` succeeds: the returned results and `all_metrics` are
the same ranking, which is descending on the lexicographic
`(balanced accuracy, macro-F1)` key, is a permutation of the input
candidates, keeps the candidates of any fixed key value in declaration
order (stable tie-breaking), and whose first element is the reported
best candidate. -/
theorem C9_train_models_ranked (l : List ADS.Metrics) (p : ADS.TrainPayload)
    (k : Rat × Rat) (hp : ADS.train_models l = some p) :
    p.results = ADS.pySortDesc l ∧
    p.all_metrics = p.results ∧
    ADS.RankedDesc p.results ∧
    List.Perm p.results l ∧
    p.results.filter (fun m => decide (ADS.rankKey m = k)) =
      l.filter (fun m => decide (ADS.rankKey m = k)) ∧
    p.results.head? = some p.best := by
  unfold ADS.train_models at hp
  split at hp
  · exact Option.noConfusion hp
  · rename_i best rest heq
    injection hp with hp
    subst hp
    refine ⟨heq.symm, rfl, ?_, ?_, ?_, rfl⟩
    · rw [← heq]
      exact ADS.pySortDesc_ranked l
    · rw [← heq]
      exact ADS.pySortDesc_perm l
    · rw [← heq]
      exact ADS.pySortDesc_filter l k

namespace ADS

/-- Witness metrics for C9: a dummy baseline and two candidates tied on
both key components, in declaration order. -/
def wlC9 : List Metrics :=
  [⟨"DummyMostFrequent", 0.8, 0.5, 0.4, 0.4, 0.5⟩,
   ⟨"LogisticRegression", 0.7, 0.7, 0.5, 0.5, 0.5⟩,
   ⟨"RandomForest", 0.71, 0.7, 0.5, 0.52, 0.5⟩]

/-- The payload the embedding computes for `wlC9`: the tie keeps
`LogisticRegression` before `RandomForest`. -/
def wpC9 : TrainPayload :=
  ⟨[⟨"LogisticRegression", 0.7, 0.7, 0.5, 0.5, 0.5⟩,
    ⟨"RandomForest", 0.71, 0.7, 0.5, 0.52, 0.5⟩,
    ⟨"DummyMostFrequent", 0.8, 0.5, 0.4, 0.4, 0.5⟩],
   ⟨"LogisticRegression", 0.7, 0.7, 0.5, 0.5, 0.5⟩,
   [⟨"LogisticRegression", 0.7, 0.7, 0.5, 0.5, 0.5⟩,
    ⟨"RandomForest", 0.71, 0.7, 0.5, 0.52, 0.5⟩,
    ⟨"DummyMostFrequent", 0.8, 0.5, 0.4, 0.4, 0.5⟩]⟩

end ADS

/-- Witness for C9 on the concrete tied candidate list. -/
theorem C9_train_models_ranked_witness :
    ADS.wpC9.results.head? = some ADS.wpC9.best ∧
    List.Perm ADS.wpC9.results ADS.wlC9 :=
  ⟨(C9_train_models_ranked ADS.wlC9 ADS.wpC9 (0.7, 0.5) (by decide)).2.2.2.2.2,
   (C9_train_models_ranked ADS.wlC9 ADS.wpC9 (0.7, 0.5) (by decide)).2.2.2.1⟩
